import Mathlib

/-!
Verification development for the PathCORE-T analysis repository.

Part 1 embeds `constants/gene_signature_definitions.py`: the eADAGE and NMF
gene-signature rules applied to one feature's weight vector, and the
`GENE_SIGNATURE_DEFINITIONS` registry.

A pandas Series of per-gene weights is modelled as a list of
(gene label, weight) pairs.  Float arithmetic is idealised: mean and sample
variance are exact rational computations and the standard deviation is the
real square root of the variance.  pandas computes `Series.std()` with
`ddof = 1`; on a vector of length at most 1 that is NaN and every comparison
against NaN is False, which the definitions below reflect by returning empty
signature sets in that case.
-/

/-- A feature weight vector (`pandas.Series(float)` indexed by gene label). -/
abbrev Series := List (String × ℚ)

/-- `feature_weight_vector.mean()`: the sum of the weights over their number. -/
def series_mean (v : Series) : ℚ := (v.map Prod.snd).sum / (v.length : ℚ)

/-- The square of `feature_weight_vector.std()`: the sample variance with
`ddof = 1`, that is `(Σ (w - mean)^2) / (n - 1)`. -/
def series_var (v : Series) : ℚ :=
  (v.map (fun p => (p.2 - series_mean v) ^ 2)).sum / ((v.length : ℚ) - 1)

/-- `define_eADAGE_gene_signature(std)` applied to a feature weight vector:
`mean = v.mean()`, `cutoff = std * v.std()`; the positive gene signature is the
index set of the weights `>= mean + cutoff` and the negative gene signature is
the index set of the weights `<= mean - cutoff`.  For a vector of length at
most 1 the sample std is NaN and both filters select nothing. -/
def define_eADAGE_gene_signature (std : ℚ) (v : Series) :
    Set String × Set String :=
  if v.length ≤ 1 then ((∅ : Set String), (∅ : Set String))
  else
    ({g | ∃ w, (g, w) ∈ v ∧
        (series_mean v : ℝ) + (std : ℝ) * Real.sqrt (series_var v) ≤ (w : ℝ)},
     {g | ∃ w, (g, w) ∈ v ∧
        (w : ℝ) ≤ (series_mean v : ℝ) - (std : ℝ) * Real.sqrt (series_var v)})

/-- `define_NMF_gene_signature(std)` applied to a feature weight vector: the
same positive threshold `mean + std * v.std()` as the eADAGE rule, and a
negative gene signature that is always the empty set. -/
def define_NMF_gene_signature (std : ℚ) (v : Series) :
    Set String × Set String :=
  if v.length ≤ 1 then ((∅ : Set String), (∅ : Set String))
  else
    ({g | ∃ w, (g, w) ∈ v ∧
        (series_mean v : ℝ) + (std : ℝ) * Real.sqrt (series_var v) ≤ (w : ℝ)},
     (∅ : Set String))

/-- The `GENE_SIGNATURE_DEFINITIONS` registry: a name-keyed association list of
the two signature rules. -/
def GENE_SIGNATURE_DEFINITIONS :
    List (String × (ℚ → Series → Set String × Set String)) :=
  [("eADAGE", define_eADAGE_gene_signature),
   ("NMF", define_NMF_gene_signature)]

/-- In a series whose gene labels are pairwise distinct, a label determines its
weight. -/
lemma series_weight_unique {v : Series} (hnd : (v.map Prod.fst).Nodup)
    {g : String} {w₁ w₂ : ℚ} (h₁ : (g, w₁) ∈ v) (h₂ : (g, w₂) ∈ v) :
    w₁ = w₂ := by
  induction v with
  | nil => cases h₁
  | cons p rest ih =>
    rw [List.map_cons, List.nodup_cons] at hnd
    rcases List.mem_cons.mp h₁ with h₁ | h₁ <;>
      rcases List.mem_cons.mp h₂ with h₂ | h₂
    · rw [← h₁] at h₂; exact (Prod.mk.injEq _ _ _ _ ▸ h₂).2.symm
    · exact absurd (List.mem_map_of_mem Prod.fst h₂)
        (by rw [← h₁] at hnd; exact hnd.1)
    · exact absurd (List.mem_map_of_mem Prod.fst h₁)
        (by rw [← h₂] at hnd; exact hnd.1)
    · exact ih hnd.2 h₁ h₂

/-- On a constant series the mean is the common value. -/
lemma series_mean_const {v : Series} {c : ℚ} (h2 : 2 ≤ v.length)
    (hc : ∀ p ∈ v, p.2 = c) : series_mean v = c := by
  have hmap : v.map Prod.snd = List.replicate v.length c := by
    rw [List.eq_replicate_iff]
    exact ⟨by simp, by intro b hb
                       rcases List.mem_map.mp hb with ⟨p, hp, hpb⟩
                       rw [← hpb]; exact hc p hp⟩
  have hlen : (v.length : ℚ) ≠ 0 := by
    have hpos : 0 < v.length := by omega
    positivity
  rw [series_mean, hmap, List.sum_replicate, nsmul_eq_mul]
  field_simp

/-- On a constant series the sample variance is zero. -/
lemma series_var_const {v : Series} {c : ℚ} (h2 : 2 ≤ v.length)
    (hc : ∀ p ∈ v, p.2 = c) : series_var v = 0 := by
  have hm := series_mean_const h2 hc
  have hsum : (v.map (fun p => (p.2 - series_mean v) ^ 2)).sum = 0 := by
    apply List.sum_eq_zero
    intro x hx
    rcases List.mem_map.mp hx with ⟨p, hp, hpx⟩
    rw [← hpx, hm, hc p hp, sub_self, pow_two, mul_zero]
  rw [series_var, hsum, zero_div]

/-- Claim C1 (amended): for every weight vector with at least two entries and
pairwise-distinct gene labels, and every positive std, the eADAGE rule returns
a positive set equal to the genes with weight at least mean + std * sigma and a
negative set equal to the genes with weight at most mean - std * sigma; every
gene of the vector lying in neither set has weight strictly between the two
cutoffs; and whenever the sample variance of the vector is nonzero the two
sets are disjoint (on a zero-variance vector both sets coincide with the full
gene set, refuting the unconditional disjointness of the original claim). -/
theorem C1_eADAGE_signature (std : ℚ) (v : Series)
    (h2 : 2 ≤ v.length) (hnd : (v.map Prod.fst).Nodup) (hstd : 0 < std) :
    (define_eADAGE_gene_signature std v).1 =
      {g | ∃ w, (g, w) ∈ v ∧
        (series_mean v : ℝ) + (std : ℝ) * Real.sqrt (series_var v) ≤ (w : ℝ)} ∧
    (define_eADAGE_gene_signature std v).2 =
      {g | ∃ w, (g, w) ∈ v ∧
        (w : ℝ) ≤ (series_mean v : ℝ) - (std : ℝ) * Real.sqrt (series_var v)} ∧
    (∀ g w, (g, w) ∈ v → g ∉ (define_eADAGE_gene_signature std v).1 →
      g ∉ (define_eADAGE_gene_signature std v).2 →
      (series_mean v : ℝ) - (std : ℝ) * Real.sqrt (series_var v) < (w : ℝ) ∧
        (w : ℝ) < (series_mean v : ℝ) + (std : ℝ) * Real.sqrt (series_var v)) ∧
    (0 < series_var v →
      Disjoint (define_eADAGE_gene_signature std v).1
        (define_eADAGE_gene_signature std v).2) := by
  have hif : ¬ v.length ≤ 1 := by omega
  refine ⟨by simp [define_eADAGE_gene_signature, hif],
          by simp [define_eADAGE_gene_signature, hif], ?_, ?_⟩
  · intro g w hm hp hn
    simp only [define_eADAGE_gene_signature, if_neg hif, Set.mem_setOf_eq,
      not_exists, not_and] at hp hn
    constructor
    · by_contra hlt
      exact hn w hm (not_lt.mp hlt)
    · by_contra hlt
      exact hp w hm (not_lt.mp hlt)
  · intro hvar
    rw [Set.disjoint_left]
    intro g hpos hneg
    simp only [define_eADAGE_gene_signature, if_neg hif,
      Set.mem_setOf_eq] at hpos hneg
    obtain ⟨w₁, hm₁, hge⟩ := hpos
    obtain ⟨w₂, hm₂, hle⟩ := hneg
    have hw : w₁ = w₂ := series_weight_unique hnd hm₁ hm₂
    subst hw
    have hsq : 0 < Real.sqrt (series_var v) :=
      Real.sqrt_pos.mpr (by exact_mod_cast hvar)
    have hcut : 0 < (std : ℝ) * Real.sqrt (series_var v) :=
      mul_pos (by exact_mod_cast hstd) hsq
    linarith

/-- Witness for C1: on the vector a=0, b=1, c=2 (mean 1, sample variance 1)
with std = 1 all hypotheses hold and the positive and negative signatures
are disjoint. -/
theorem C1_witness :
    0 < series_var [("a", 0), ("b", 1), ("c", 2)] ∧
    Disjoint (define_eADAGE_gene_signature 1 [("a", 0), ("b", 1), ("c", 2)]).1
      (define_eADAGE_gene_signature 1 [("a", 0), ("b", 1), ("c", 2)]).2 :=
  ⟨by norm_num [series_var, series_mean],
   (C1_eADAGE_signature 1 [("a", 0), ("b", 1), ("c", 2)]
      (by decide) (by decide) (by decide)).2.2.2
      (by norm_num [series_var, series_mean])⟩

/-- Counterexample to C1 as stated: on the zero-variance vector a=1, b=1 with
std = 1 the cutoff is 0, gene "a" lies in both the positive and the
negative eADAGE signature, so the two sets are not disjoint. -/
theorem C1_counterexample :
    ¬ Disjoint (define_eADAGE_gene_signature 1 [("a", 1), ("b", 1)]).1
        (define_eADAGE_gene_signature 1 [("a", 1), ("b", 1)]).2 := by
  rw [Set.not_disjoint_iff]
  have hvar : series_var [("a", 1), ("b", 1)] = 0 := by
    norm_num [series_var, series_mean]
  have hmean : series_mean [("a", 1), ("b", 1)] = 1 := by
    norm_num [series_mean]
  refine ⟨"a", ?_, ?_⟩ <;>
    simp only [define_eADAGE_gene_signature, hvar, hmean, List.length_cons,
      List.length_nil, Nat.reduceAdd, if_neg (by omega : ¬ (2 : ℕ) ≤ 1),
      Set.mem_setOf_eq] <;>
    exact ⟨1, by simp, by norm_num⟩

/-- Claim C2 (amended): on a weight vector of length at least 2 whose weights
are all equal (zero variance), the eADAGE rule raises no error but returns the
positive and the negative signature both equal to the FULL set of genes of the
vector (the cutoff `std * sigma` is 0 and every weight compares both `>= mean`
and `<= mean`), not two empty sets as originally claimed. -/
theorem C2_zero_variance_signature (std : ℚ) (c : ℚ) (v : Series)
    (h2 : 2 ≤ v.length) (hc : ∀ p ∈ v, p.2 = c) :
    (define_eADAGE_gene_signature std v).1 = {g | ∃ w, (g, w) ∈ v} ∧
    (define_eADAGE_gene_signature std v).2 = {g | ∃ w, (g, w) ∈ v} := by
  have hif : ¬ v.length ≤ 1 := by omega
  have hm := series_mean_const h2 hc
  have hv := series_var_const h2 hc
  simp only [define_eADAGE_gene_signature, if_neg hif, hm, hv]
  constructor <;> ext g <;>
    simp only [Set.mem_setOf_eq, Rat.cast_zero, Real.sqrt_zero, mul_zero,
      add_zero, sub_zero] <;>
    constructor
  · rintro ⟨w, hw, _⟩; exact ⟨w, hw⟩
  · rintro ⟨w, hw⟩
    refine ⟨w, hw, ?_⟩
    have hwc : w = c := hc (g, w) hw
    subst hwc
    exact le_refl _
  · rintro ⟨w, hw, _⟩; exact ⟨w, hw⟩
  · rintro ⟨w, hw⟩
    refine ⟨w, hw, ?_⟩
    have hwc : w = c := hc (g, w) hw
    subst hwc
    exact le_refl _

/-- Witness for C2: on the constant vector x=3, y=3 with std = 2 the positive
signature is the whole two-gene index set. -/
theorem C2_witness :
    (define_eADAGE_gene_signature 2 [("x", 3), ("y", 3)]).1 =
      {g | ∃ w, (g, w) ∈ ([("x", 3), ("y", 3)] : Series)} :=
  (C2_zero_variance_signature 2 3 [("x", 3), ("y", 3)]
    (by decide) (by decide)).1

/-- Counterexample to C2 as stated: on the zero-variance vector x=5, y=5 with
std = 2 the positive eADAGE signature contains gene "x", hence is not empty. -/
theorem C2_counterexample :
    "x" ∈ (define_eADAGE_gene_signature 2 [("x", 5), ("y", 5)]).1 ∧
    (define_eADAGE_gene_signature 2 [("x", 5), ("y", 5)]).1 ≠
      (∅ : Set String) := by
  have hvar : series_var [("x", 5), ("y", 5)] = 0 := by
    norm_num [series_var, series_mean]
  have hmean : series_mean [("x", 5), ("y", 5)] = 5 := by
    norm_num [series_mean]
  have hmem : "x" ∈ (define_eADAGE_gene_signature 2 [("x", 5), ("y", 5)]).1 := by
    simp only [define_eADAGE_gene_signature, hvar, hmean, List.length_cons,
      List.length_nil, Nat.reduceAdd, if_neg (by omega : ¬ (2 : ℕ) ≤ 1),
      Set.mem_setOf_eq]
    exact ⟨5, by simp, by norm_num⟩
  refine ⟨hmem, fun h => ?_⟩
  rw [h] at hmem
  exact hmem

/-- Claim C6: for every std and every weight vector, the NMF rule returns the
same positive signature as the eADAGE rule and an always-empty negative
signature. -/
theorem C6_NMF_signature (std : ℚ) (v : Series) :
    (define_NMF_gene_signature std v).1 =
      (define_eADAGE_gene_signature std v).1 ∧
    (define_NMF_gene_signature std v).2 = (∅ : Set String) := by
  unfold define_NMF_gene_signature define_eADAGE_gene_signature
  by_cases h : v.length ≤ 1 <;> simp [h]

/-!
Part 2 embeds `process` from `1.analysis_scripts/build_co_occurrence_network.py`.

One row of the per-feature enrichment dataframe is a pathway name together
with its statistic; the concrete extra columns beyond the pathway name are
irrelevant to the claims and collapsed into one rational statistic field.
The two external library calls `pathway_enrichment_with_overlap_correction`
and `pathway_enrichment_no_overlap_correction` are abstracted as oracles:
all their other arguments (`pathway_definitions`, the signature rule with its
arguments, `alpha`, `correct_all_genes`, `metadata`) are fixed for the whole
loop, so each oracle is a function of the feature's weight column alone,
returning the pair `(feature_df, additional)` of the source — `none` for a
`feature_df` of Python `None`, and `none` for a falsy `additional`.

IMPORTANT: the body of the source function branches on the module-level
variable `crosstalk_correction` (assigned only in the `__main__` block), NOT
on its own declared parameter `overlap_correction`; the embedding makes this
explicit by giving `process` both the global and the parameter.
-/

/-- One row of a significant-pathways dataframe returned by an enrichment
call: a pathway name plus its statistic columns. -/
structure Row where
  pathway : String
  qvalue : ℚ
deriving DecidableEq

/-- A row of the accumulated significant-pathways table after `process` adds
the "feature" column carrying the originating feature id. -/
structure TaggedRow where
  feature : Nat
  pathway : String
  qvalue : ℚ
deriving DecidableEq

/-- The dictionary returned by `process`: the model's filename, the
concatenated significant-pathways table, and the per-feature metadata. -/
structure ProcessResult (MetaD : Type) where
  filename : String
  significant_pathways : List TaggedRow
  feature_metadata : List (Nat × MetaD)
deriving DecidableEq

/-- The `for feature in weight_matrix` accumulation of significant-pathway
rows: a feature whose enrichment `feature_df` is `None` is skipped, otherwise
its rows are tagged with the feature id and concatenated in order. -/
def accumulate_rows {Col MetaD : Type}
    (enrich : Col → Option (List Row) × Option MetaD) :
    List (Nat × Col) → List TaggedRow
  | [] => []
  | fc :: rest =>
    (match (enrich fc.2).1 with
     | none => []
     | some feature_df =>
         feature_df.map (fun r => ⟨fc.1, r.pathway, r.qvalue⟩)) ++
      accumulate_rows enrich rest

/-- The `for feature in weight_matrix` accumulation of per-feature metadata:
collected only when `feature_df is not None` and `additional` is truthy. -/
def accumulate_metadata {Col MetaD : Type}
    (enrich : Col → Option (List Row) × Option MetaD) :
    List (Nat × Col) → List (Nat × MetaD)
  | [] => []
  | fc :: rest =>
    match (enrich fc.2).1, (enrich fc.2).2 with
    | some _, some additional =>
        (fc.1, additional) :: accumulate_metadata enrich rest
    | _, _ => accumulate_metadata enrich rest

/-- `process(current_weight_matrix, ..., overlap_correction, ...)`: for each
feature column, run the enrichment path selected by the module-level global
`crosstalk_correction` (the declared parameter `overlap_correction` is never
read by the body), then tag and accumulate the returned rows and metadata.
`current_weight_matrix` is the source's `(filename, weight matrix)` pair, the
matrix being its list of `(feature id, weight column)` columns. -/
def process {Col MetaD : Type} (crosstalk_correction : Bool)
    (pathway_enrichment_with_overlap_correction :
      Col → Option (List Row) × Option MetaD)
    (pathway_enrichment_no_overlap_correction :
      Col → Option (List Row) × Option MetaD)
    (overlap_correction : Bool)
    (current_weight_matrix : String × List (Nat × Col)) :
    ProcessResult MetaD :=
  let enrich := fun col =>
    if crosstalk_correction then
      pathway_enrichment_with_overlap_correction col
    else
      pathway_enrichment_no_overlap_correction col
  ⟨current_weight_matrix.1,
   accumulate_rows enrich current_weight_matrix.2,
   accumulate_metadata enrich current_weight_matrix.2⟩

/-- The filename in a `process` result is the submitted filename. -/
lemma process_filename {Col MetaD : Type} (ct ow : Bool)
    (eW eN : Col → Option (List Row) × Option MetaD)
    (m : String × List (Nat × Col)) :
    (process ct eW eN ow m).filename = m.1 := rfl

/-- Enrichment oracle standing for the overlap-corrected path in the C3
evaluation: one significant row labelled by the corrected path. -/
def enrich_corrected_path : Unit → Option (List Row) × Option Unit :=
  fun _ => (some [⟨"PW_corrected", 1⟩], none)

/-- Enrichment oracle standing for the uncorrected path in the C3
evaluation: one significant row labelled by the uncorrected path. -/
def enrich_uncorrected_path : Unit → Option (List Row) × Option Unit :=
  fun _ => (some [⟨"PW_uncorrected", 1⟩], none)

/-- Claim C3 (code bug): calling `process` with `overlap_correction = false`
while the module-level global `crosstalk_correction` is true still takes the
overlap-corrected enrichment path — the output equals the corrected-path
output and differs from what the same call produces when the global is false,
so the result is NOT a function of the declared parameters alone, contrary to
the claim and to the function's own docstring. -/
theorem C3_overlap_flag_ignored :
    process true enrich_corrected_path enrich_uncorrected_path false
        ("model.tsv", [(0, ())]) =
      ⟨"model.tsv", [⟨0, "PW_corrected", 1⟩], []⟩ ∧
    process true enrich_corrected_path enrich_uncorrected_path false
        ("model.tsv", [(0, ())]) ≠
      process false enrich_corrected_path enrich_uncorrected_path false
        ("model.tsv", [(0, ())]) := by
  refine ⟨rfl, fun h => ?_⟩
  have h2 := congrArg ProcessResult.significant_pathways h
  simp only [process, enrich_corrected_path, enrich_uncorrected_path,
    accumulate_rows, accumulate_metadata, Bool.false_eq_true, if_true,
    if_false, List.map_cons, List.map_nil, List.append_nil] at h2
  simp at h2

/-- Claim C5: for every model processed by `process`, a feature whose
enrichment returns no significant pathways (a `None` or empty `feature_df`
for every column carrying that feature id) contributes zero rows to the
significant-pathways table, and every contributed row carries a "feature"
field equal to the id of the feature column it originated from. -/
theorem C5_feature_rows {Col MetaD : Type} (ct ow : Bool)
    (eW eN : Col → Option (List Row) × Option MetaD)
    (filename : String) (features : List (Nat × Col)) :
    (∀ f : Nat,
      (∀ c : Col, (f, c) ∈ features →
        (if ct then eW c else eN c).1 = none ∨
        (if ct then eW c else eN c).1 = some []) →
      (process ct eW eN ow (filename, features)).significant_pathways.filter
        (fun t => t.feature == f) = []) ∧
    (∀ t ∈ (process ct eW eN ow (filename, features)).significant_pathways,
      ∃ c rows, (t.feature, c) ∈ features ∧
        (if ct then eW c else eN c).1 = some rows ∧
        (⟨t.pathway, t.qvalue⟩ : Row) ∈ rows) := by
  constructor
  · intro f hf
    simp only [process]
    induction features with
    | nil => rfl
    | cons fc rest ih =>
      rw [accumulate_rows, List.filter_append]
      have htail := ih (fun c hc => hf c (List.mem_cons_of_mem fc hc))
      rw [htail, List.append_nil]
      by_cases hfc : fc.1 = f
      · rcases hf fc.2 (by rw [← hfc]; exact List.mem_cons_self fc rest) with
          h | h <;> rw [h] <;> simp
      · apply List.filter_eq_nil_iff.mpr
        intro t ht
        cases hdf : (if ct then eW fc.2 else eN fc.2).1 with
        | none => rw [hdf] at ht; cases ht
        | some feature_df =>
          rw [hdf] at ht
          rcases List.mem_map.mp ht with ⟨r, _, hr⟩
          rw [← hr]
          simpa using hfc
  · intro t ht
    simp only [process] at ht
    induction features with
    | nil => cases ht
    | cons fc rest ih =>
      rw [accumulate_rows] at ht
      rcases List.mem_append.mp ht with hhead | htail
      · cases hdf : (if ct then eW fc.2 else eN fc.2).1 with
        | none => rw [hdf] at hhead; cases hhead
        | some feature_df =>
          rw [hdf] at hhead
          rcases List.mem_map.mp hhead with ⟨r, hr, hrt⟩
          refine ⟨fc.2, feature_df, ?_, hdf, ?_⟩
          · rw [← hrt]; exact List.mem_cons_self fc rest
          · rw [← hrt]; exact hr
      · rcases ih htail with ⟨c, rows, hmem, hdf, hrow⟩
        exact ⟨c, rows, List.mem_cons_of_mem fc hmem, hdf, hrow⟩

/-- Enrichment oracle returning no significant pathways for every column. -/
def enrich_none : Unit → Option (List Row) × Option Unit :=
  fun _ => (none, none)

/-- Witness for C5: a model with one feature whose enrichment returns no
significant pathways contributes no rows tagged with that feature. -/
theorem C5_witness :
    (process false enrich_none enrich_none false
      ("model_A.tsv", [(0, ())])).significant_pathways.filter
        (fun t => t.feature == 0) = [] :=
  (C5_feature_rows false false enrich_none enrich_none
      "model_A.tsv" [(0, ())]).1 0 (fun c _ => Or.inl rfl)

/-!
Part 3 embeds the parallel fan-out `Parallel(n_jobs=n_cores)(delayed(process)
(weight_matrix_info, *process_model_args) for weight_matrix_info in
weight_matrices)`.

joblib assembles the outputs of the dispatched tasks into a slot per task
index and hands the list back in submission order, whatever order the workers
happen to complete the tasks in; the worker count `n_jobs` only influences
which completion orders can arise, never how a task's output is computed.
The completion order is modelled as the list of task indices in the order
their results arrive.

When any delayed task raises, the `parallel(...)` call itself raises that
exception and returns no results at all; `run_joblib` below models this
error semantics with `Except`.
-/

/-- The completed `(task index, task output)` pairs, in completion order. -/
def delayed_results {α β : Type} (f : α → β) (tasks : List α)
    (order : List Nat) : List (Nat × β) :=
  order.filterMap (fun i => (tasks[i]?).map (fun t => (i, f t)))

/-- Read the output slot of task `i` from the completed results. -/
def retrieve_slot {β : Type} (i : Nat) : List (Nat × β) → Option β
  | [] => none
  | jb :: rest => if i = jb.1 then some jb.2 else retrieve_slot i rest

/-- The full parallel call: dispatch every task, let them complete in
`order`, and reassemble the outputs in submission order. -/
def parallel_call {α β : Type} (n_jobs : Nat) (f : α → β) (tasks : List α)
    (order : List Nat) : List β :=
  (List.range tasks.length).filterMap
    (fun i => retrieve_slot i (delayed_results f tasks order))

/-- Processing the same tasks sequentially, in submission order. -/
def sequential_call {α β : Type} (f : α → β) (tasks : List α) : List β :=
  tasks.map f

/-- Retrieving slot `i` after a completion order containing `i` yields the
output of task `i`. -/
lemma retrieve_delayed {α β : Type} (f : α → β) (tasks : List α) :
    ∀ (order : List Nat) (i : Nat), i ∈ order → i < tasks.length →
    retrieve_slot i (delayed_results f tasks order) = (tasks[i]?).map f := by
  intro order
  induction order with
  | nil => intro i hi; cases hi
  | cons j rest ih =>
    intro i hi hlt
    show retrieve_slot i
      (List.filterMap (fun i => (tasks[i]?).map (fun t => (i, f t)))
        (j :: rest)) = _
    rw [List.filterMap_cons]
    cases hj : tasks[j]? with
    | none =>
      have hij : i ≠ j := by
        intro he
        subst he
        have hlen := List.getElem?_eq_none_iff.mp hj
        omega
      simp only [Option.map_none']
      exact ih i (List.mem_of_ne_of_mem hij hi) hlt
    | some t =>
      simp only [Option.map_some']
      by_cases hij : i = j
      · subst hij
        rw [retrieve_slot, if_pos rfl, hj, Option.map_some']
      · rw [retrieve_slot, if_neg hij]
        exact ih i (List.mem_of_ne_of_mem hij hi) hlt

/-- Reassembling `(tasks[i]?).map f` over the index range is just mapping `f`
over the tasks in submission order. -/
lemma range_retrieve_map {α β : Type} (f : α → β) (tasks : List α) :
    (List.range tasks.length).filterMap (fun i => (tasks[i]?).map f) =
      tasks.map f := by
  induction tasks with
  | nil => rfl
  | cons t ts ih =>
    rw [List.length_cons, List.range_succ_eq_map, List.filterMap_cons,
      List.filterMap_map]
    simp only [List.getElem?_cons_zero, Option.map_some']
    congr 1
    rw [show ((fun i => ((t :: ts)[i]?).map f) ∘ Nat.succ) =
        (fun i => (ts[i]?).map f) from funext (fun i => by
          simp [Function.comp, List.getElem?_cons_succ]), ih]

/-- Any completion order that covers every task index reassembles to the
sequential result. -/
lemma parallel_call_eq_sequential {α β : Type} (n_jobs : Nat) (f : α → β)
    (tasks : List α) (order : List Nat)
    (h : ∀ i, i < tasks.length → i ∈ order) :
    parallel_call n_jobs f tasks order = sequential_call f tasks := by
  unfold parallel_call sequential_call
  rw [List.filterMap_congr (g := fun i => (tasks[i]?).map f)
    (fun i hi => retrieve_delayed f tasks order i
      (h i (List.mem_range.mp hi)) (List.mem_range.mp hi))]
  exact range_retrieve_map f tasks

/-- Claim C8: for any list of valid models with pairwise-distinct filenames,
any two worker counts and any two completion orders (permutations of the task
indices), the parallel fan-out over `process` returns exactly one result per
model, with each submitted filename appearing exactly once, and the returned
tables are identical to sequential processing — the result does not depend on
the parallelism degree. -/
theorem C8_parallel_determinism {Col MetaD : Type} (ct ow : Bool)
    (eW eN : Col → Option (List Row) × Option MetaD)
    (models : List (String × List (Nat × Col)))
    (n_jobs n_jobs' : Nat) (order order' : List Nat)
    (h : order.Perm (List.range models.length))
    (h' : order'.Perm (List.range models.length))
    (hnd : (models.map Prod.fst).Nodup) :
    parallel_call n_jobs (process ct eW eN ow) models order =
      sequential_call (process ct eW eN ow) models ∧
    parallel_call n_jobs (process ct eW eN ow) models order =
      parallel_call n_jobs' (process ct eW eN ow) models order' ∧
    (parallel_call n_jobs (process ct eW eN ow) models order).length =
      models.length ∧
    (∀ m ∈ models,
      ((parallel_call n_jobs (process ct eW eN ow) models order).map
        (fun r => r.filename)).count m.1 = 1) := by
  have hcov : ∀ i, i < models.length → i ∈ order := fun i hi =>
    h.mem_iff.mpr (List.mem_range.mpr hi)
  have hcov' : ∀ i, i < models.length → i ∈ order' := fun i hi =>
    h'.mem_iff.mpr (List.mem_range.mpr hi)
  have heq := parallel_call_eq_sequential n_jobs (process ct eW eN ow)
    models order hcov
  have heq' := parallel_call_eq_sequential n_jobs' (process ct eW eN ow)
    models order' hcov'
  refine ⟨heq, heq.trans heq'.symm, ?_, ?_⟩
  · rw [heq]; exact List.length_map models _
  · intro m hm
    rw [heq]
    have hmapeq : (sequential_call (process ct eW eN ow) models).map
        (fun r => r.filename) = models.map Prod.fst := by
      unfold sequential_call
      rw [List.map_map]
      rfl
    rw [hmapeq]
    exact List.count_eq_one_of_mem hnd
      (List.mem_map_of_mem Prod.fst hm)

/-- Witness for C8: two models completed out of order on 3 workers give the
same result as in order on 1 worker, namely the sequential result. -/
theorem C8_witness :
    ([1, 0] : List Nat).Perm (List.range 2) ∧
    parallel_call 3 (process true enrich_none enrich_none true)
        [("model_0.tsv", [(0, ())]), ("model_1.tsv", [(0, ())])] [1, 0] =
      parallel_call 1 (process true enrich_none enrich_none true)
        [("model_0.tsv", [(0, ())]), ("model_1.tsv", [(0, ())])] [0, 1] :=
  ⟨by decide,
   (C8_parallel_determinism true true enrich_none enrich_none
      [("model_0.tsv", [(0, ())]), ("model_1.tsv", [(0, ())])]
      3 1 [1, 0] [0, 1] (by decide) (by decide) (by decide)).2.1⟩

/-- joblib `Parallel` error semantics: the delayed tasks are consumed in
submission order and an exception raised by any task propagates out of the
`parallel(...)` call, which then returns no results at all — the completed
outputs of the other tasks are discarded. -/
def run_joblib {α β ε : Type} (f : α → Except ε β) :
    List α → Except ε (List β)
  | [] => Except.ok []
  | t :: ts =>
    match f t with
    | Except.error e => Except.error e
    | Except.ok r =>
      match run_joblib f ts with
      | Except.error e => Except.error e
      | Except.ok rs => Except.ok (r :: rs)

/-- Claim C4 (amended): when one submitted model fails, the whole parallel
call fails with that model's error and returns NO results — the completed
results of the other models are discarded rather than returned alongside a
tagged per-model failure; when every model succeeds the call returns one
result per model. -/
theorem C4_parallel_abort {α β ε : Type} (f : α → Except ε β)
    (pre post : List α) (t : α) (e : ε)
    (hpre : ∀ x ∈ pre, ∃ r, f x = Except.ok r)
    (ht : f t = Except.error e) :
    run_joblib f (pre ++ t :: post) = Except.error e ∧
    (∀ l : List α, (∀ x ∈ l, ∃ r, f x = Except.ok r) →
      ∃ rs : List β, run_joblib f l = Except.ok rs ∧
        rs.length = l.length) := by
  constructor
  · induction pre with
    | nil =>
      rw [List.nil_append, run_joblib, ht]
    | cons x xs ih =>
      obtain ⟨r, hr⟩ := hpre x (List.mem_cons_self x xs)
      rw [List.cons_append, run_joblib, hr,
        ih (fun y hy => hpre y (List.mem_cons_of_mem x hy))]
  · intro l hl
    induction l with
    | nil => exact ⟨[], rfl, rfl⟩
    | cons x xs ih =>
      obtain ⟨r, hr⟩ := hl x (List.mem_cons_self x xs)
      obtain ⟨rs, hrs, hlen⟩ :=
        ih (fun y hy => hl y (List.mem_cons_of_mem x hy))
      exact ⟨r :: rs, by rw [run_joblib, hr, hrs], by simp [hlen]⟩

/-- A per-model processing function that fails on task 0 only. -/
def flaky_process (n : Nat) : Except String Nat :=
  if n = 0 then Except.error "malformed weight matrix" else Except.ok n

/-- Witness for C4: with task 1 succeeding, task 0 failing and task 2
pending, the whole parallel call returns the error of task 0. -/
theorem C4_witness :
    run_joblib flaky_process ([1] ++ 0 :: [2]) =
      Except.error "malformed weight matrix" :=
  (C4_parallel_abort flaky_process [1] [2] 0 "malformed weight matrix"
    (by intro x hx
        have hx1 : x = 1 := by simpa using hx
        exact ⟨1, by rw [hx1]; rfl⟩)
    rfl).1

/-- The per-model processing of a batch in which `modelA.tsv` is malformed
and every other model is valid. -/
def broken_batch (m : String) : Except String Nat :=
  if m = "modelA.tsv" then Except.error "ValueError: malformed weight matrix"
  else Except.ok 7

/-- Counterexample to C4 as stated: in a two-model batch whose first model is
malformed, the parallel call returns the bare error — no tagged per-model
failure record and no result for the second model, although that model on its
own succeeds. -/
theorem C4_counterexample :
    run_joblib broken_batch ["modelA.tsv", "modelB.tsv"] =
      Except.error "ValueError: malformed weight matrix" ∧
    broken_batch "modelB.tsv" = Except.ok 7 ∧
    (run_joblib broken_batch ["modelA.tsv", "modelB.tsv"]).isOk = false := by
  refine ⟨?_, ?_, ?_⟩ <;> rfl

/-!
Part 4 embeds the validation sequence of the script's `__main__` block.

Statement order in the source: the `--signature` name is checked against the
`GENE_SIGNATURE_DEFINITIONS` registry (raising a ValueError on a miss) before
anything else that matters here; afterwards the script reads
`arguments["--crosstalk-correction"]`, a key docopt never creates (the usage
string declares only `--overlap-correction`), which raises a KeyError; only
further down would the pathway definitions and weight matrices be loaded and
the parallel fan-out entered.  The spec's `ConfigurationError` taxonomy names
the ValueError of the registry miss.
-/

/-- The error classes `__main__` can raise before reaching the fan-out. -/
inductive MainError where
  | unknownSignatureRule (name : String)
  | keyError (key : String)
deriving DecidableEq

/-- Lines 258-263: `if arguments["--signature"] not in
GENE_SIGNATURE_DEFINITIONS: raise ValueError(...)`. -/
def checkSignatureRule (name : String) : Except MainError Unit :=
  if name ∈ GENE_SIGNATURE_DEFINITIONS.map Prod.fst then Except.ok ()
  else Except.error (MainError.unknownSignatureRule name)

/-- The `__main__` run up to and including the parallel fan-out: first the
signature-registry check, then the read of the undeclared
`--crosstalk-correction` key, then (unreachably, given that KeyError) the
fan-out of `process` over the loaded models. -/
def mainRun {Col : Type} (signature_name : String)
    (models : List (String × List (Nat × Col)))
    (eW eN : Col → Option (List Row) × Option Unit) :
    Except MainError (List (ProcessResult Unit)) :=
  match checkSignatureRule signature_name with
  | Except.error e => Except.error e
  | Except.ok _ =>
    match (Except.error (MainError.keyError "--crosstalk-correction") :
        Except MainError Bool) with
    | Except.error e => Except.error e
    | Except.ok crosstalk_correction =>
        Except.ok (models.map
          (fun m => process crosstalk_correction eW eN crosstalk_correction m))

/-- Claim C7: a requested signature-rule name outside the registry keys
{"eADAGE", "NMF"} makes the program fail with the configuration error raised
by the registry check — before any model processing, as the outcome is the
same whatever models and enrichment behaviour are supplied — while a name
that is a registry key never produces that error. -/
theorem C7_unknown_signature_rule {Col Col' : Type} (name : String)
    (models : List (String × List (Nat × Col)))
    (models' : List (String × List (Nat × Col')))
    (eW eN : Col → Option (List Row) × Option Unit)
    (eW' eN' : Col' → Option (List Row) × Option Unit) :
    (name ∉ GENE_SIGNATURE_DEFINITIONS.map Prod.fst →
      mainRun name models eW eN =
        Except.error (MainError.unknownSignatureRule name) ∧
      mainRun name models eW eN = mainRun name models' eW' eN') ∧
    (name ∈ GENE_SIGNATURE_DEFINITIONS.map Prod.fst →
      ∀ n, mainRun name models eW eN ≠
        Except.error (MainError.unknownSignatureRule n)) := by
  constructor
  · intro hmiss
    have hrun : ∀ {γ : Type} (ms : List (String × List (Nat × γ)))
        (a b : γ → Option (List Row) × Option Unit),
        mainRun name ms a b =
          Except.error (MainError.unknownSignatureRule name) := by
      intro γ ms a b
      rw [mainRun, checkSignatureRule, if_neg hmiss]
    exact ⟨hrun models eW eN,
      (hrun models eW eN).trans (hrun models' eW' eN').symm⟩
  · intro hhit n
    rw [mainRun, checkSignatureRule, if_pos hhit]
    intro hcontra
    cases hcontra

/-- Witness for C7: the name "bogus" is rejected with the configuration
error, and the registry key "eADAGE" never is. -/
theorem C7_witness :
    mainRun "bogus" ([] : List (String × List (Nat × Unit)))
        enrich_none enrich_none =
      Except.error (MainError.unknownSignatureRule "bogus") ∧
    mainRun "eADAGE" ([] : List (String × List (Nat × Unit)))
        enrich_none enrich_none ≠
      Except.error (MainError.unknownSignatureRule "eADAGE") :=
  ⟨(C7_unknown_signature_rule "bogus" [] ([] : List (String × List (Nat × Unit)))
      enrich_none enrich_none enrich_none enrich_none).1 (by decide) |>.1,
   (C7_unknown_signature_rule "eADAGE" []
      ([] : List (String × List (Nat × Unit)))
      enrich_none enrich_none enrich_none enrich_none).2 (by decide) "eADAGE"⟩

/-!
Part 5 embeds `convert_to_gene_object_ids` from `web_initialize_db.py` and
the geneset filtering of `get_terms` from `data/get_annotations_from_Tribe.py`.

A MongoDB ObjectId is opaque; it is modelled as a natural number.  The
`gene_object_id_map` dict is modelled as a partial map `String → Option Nat`
(`some` exactly on the keys).  A metadata cell is a Python value that is
either a string of semicolon-separated identifiers, a set of identifiers
(modelled as its element list, deduplicated on use, since a Python set holds
each element once), or anything else (e.g. the NaN a pandas table produces
for an empty cell).
-/

/-- A value read from a metadata table cell or passed directly. -/
inductive MetadataCell where
  | str (s : String)
  | set (gs : List String)
  | other
deriving DecidableEq

/-- `convert_to_gene_object_ids(gene_set, gene_object_id_map)`: a string is
split on ";" into a set of identifiers; a non-string non-set input yields the
empty list; each gene of the set that is a key of the map contributes its
ObjectId, unmapped genes are silently skipped. -/
def convert_to_gene_object_ids (gene_set : MetadataCell)
    (gene_object_id_map : String → Option Nat) : List Nat :=
  match gene_set with
  | MetadataCell.str s => ((s.splitOn ";").dedup).filterMap gene_object_id_map
  | MetadataCell.set gs => gs.dedup.filterMap gene_object_id_map
  | MetadataCell.other => []

/-- Claim C9: a non-string non-set cell converts to the empty list; every
returned ObjectId is the image of a gene of the input present in the map;
and the number of returned ObjectIds never exceeds the number of distinct
genes in the input. -/
theorem C9_convert_gene_object_ids (gene_object_id_map : String → Option Nat)
    (s : String) (gs : List String) :
    convert_to_gene_object_ids MetadataCell.other gene_object_id_map = [] ∧
    (∀ x ∈ convert_to_gene_object_ids (MetadataCell.str s)
        gene_object_id_map,
      ∃ g ∈ s.splitOn ";", gene_object_id_map g = some x) ∧
    (convert_to_gene_object_ids (MetadataCell.str s)
        gene_object_id_map).length ≤ ((s.splitOn ";").dedup).length ∧
    (∀ x ∈ convert_to_gene_object_ids (MetadataCell.set gs)
        gene_object_id_map,
      ∃ g ∈ gs, gene_object_id_map g = some x) ∧
    (convert_to_gene_object_ids (MetadataCell.set gs)
        gene_object_id_map).length ≤ gs.dedup.length := by
  refine ⟨rfl, ?_, ?_, ?_, ?_⟩
  · intro x hx
    rcases List.mem_filterMap.mp hx with ⟨g, hg, hmap⟩
    exact ⟨g, List.mem_dedup.mp hg, hmap⟩
  · exact List.length_filterMap_le _ _
  · intro x hx
    rcases List.mem_filterMap.mp hx with ⟨g, hg, hmap⟩
    exact ⟨g, List.mem_dedup.mp hg, hmap⟩
  · exact List.length_filterMap_le _ _

/-- A small gene-to-ObjectId map: only "geneA" and "geneB" are keys. -/
def small_gene_map : String → Option Nat :=
  fun g => if g = "geneA" then some 11 else if g = "geneB" then some 22
    else none

/-- Witness for C9: on the cell "geneA;geneC;geneA" with a map holding only
geneA and geneB, every returned id is mapped from a listed gene and the
result is no longer than the two distinct genes of the cell. -/
theorem C9_witness :
    (∀ x ∈ convert_to_gene_object_ids
        (MetadataCell.str "geneA;geneC;geneA") small_gene_map,
      ∃ g ∈ "geneA;geneC;geneA".splitOn ";", small_gene_map g = some x) ∧
    (convert_to_gene_object_ids (MetadataCell.str "geneA;geneC;geneA")
        small_gene_map).length ≤
      (("geneA;geneC;geneA".splitOn ";").dedup).length :=
  ⟨(C9_convert_gene_object_ids small_gene_map "geneA;geneC;geneA" []).2.1,
   (C9_convert_gene_object_ids small_gene_map "geneA;geneC;geneA" []).2.2.1⟩

/-- One geneset as returned by the Tribe web server: its title and, when the
tip version is not None, the tip's gene list. -/
structure TribeGeneset where
  title : String
  tip : Option (List String)
deriving DecidableEq

/-- One entry of the `simplified_genesets` list built by `get_terms`. -/
structure SimplifiedGeneset where
  title : String
  genes : List String
deriving DecidableEq

/-- The filtering loop of `get_terms` over the genesets parsed from the
Tribe response (`result['objects']`): skip a geneset whose tip version is
None, skip a geneset whose tip gene list has more than 100 or fewer than 5
genes, and keep the rest as (title, genes) records in order. -/
def get_terms : List TribeGeneset → List SimplifiedGeneset
  | [] => []
  | gs :: rest =>
    match gs.tip with
    | none => get_terms rest
    | some tip_genes =>
      if tip_genes.length > 100 ∨ tip_genes.length < 5 then get_terms rest
      else ⟨gs.title, tip_genes⟩ :: get_terms rest

/-- Claim C10: every geneset returned by `get_terms` has a gene list of
between 5 and 100 genes inclusive and stems from an input geneset with a
non-None tip version carrying exactly that title and gene list; genesets
outside the size range or without a tip are filtered out. -/
theorem C10_get_terms_filter (genesets : List TribeGeneset)
    (t : SimplifiedGeneset) (ht : t ∈ get_terms genesets) :
    5 ≤ t.genes.length ∧ t.genes.length ≤ 100 ∧
    ∃ gs ∈ genesets, gs.tip = some t.genes ∧ gs.title = t.title := by
  induction genesets with
  | nil => cases ht
  | cons gs rest ih =>
    rw [get_terms] at ht
    cases htip : gs.tip with
    | none =>
      rw [htip] at ht
      rcases ih ht with ⟨h5, h100, g, hg, hgt⟩
      exact ⟨h5, h100, g, List.mem_cons_of_mem gs hg, hgt⟩
    | some tip_genes =>
      rw [htip] at ht
      have ht2 : t ∈ (if tip_genes.length > 100 ∨ tip_genes.length < 5
          then get_terms rest
          else ⟨gs.title, tip_genes⟩ :: get_terms rest) := ht
      by_cases hsize : tip_genes.length > 100 ∨ tip_genes.length < 5
      · rw [if_pos hsize] at ht2
        rcases ih ht2 with ⟨h5, h100, g, hg, hgt⟩
        exact ⟨h5, h100, g, List.mem_cons_of_mem gs hg, hgt⟩
      · rw [if_neg hsize] at ht2
        push_neg at hsize
        rcases List.mem_cons.mp ht2 with hhead | htail
        · subst hhead
          exact ⟨by simpa using hsize.2, by simpa using hsize.1, gs,
            List.mem_cons_self gs rest, htip, rfl⟩
        · rcases ih htail with ⟨h5, h100, g, hg, hgt⟩
          exact ⟨h5, h100, g, List.mem_cons_of_mem gs hg, hgt⟩

/-- Witness for C10: from a three-geneset response — one without a tip, one
with too few genes, one with five genes — exactly the five-gene geneset is
kept, and its size bounds hold. -/
theorem C10_witness :
    5 ≤ (SimplifiedGeneset.mk "KEGG-ok" ["g1", "g2", "g3", "g4", "g5"]).genes.length ∧
    (SimplifiedGeneset.mk "KEGG-ok" ["g1", "g2", "g3", "g4", "g5"]).genes.length ≤ 100 :=
  ⟨(C10_get_terms_filter
      [⟨"KEGG-no-tip", none⟩, ⟨"KEGG-small", some ["g1", "g2"]⟩,
       ⟨"KEGG-ok", some ["g1", "g2", "g3", "g4", "g5"]⟩]
      ⟨"KEGG-ok", ["g1", "g2", "g3", "g4", "g5"]⟩ (by decide)).1,
   (C10_get_terms_filter
      [⟨"KEGG-no-tip", none⟩, ⟨"KEGG-small", some ["g1", "g2"]⟩,
       ⟨"KEGG-ok", some ["g1", "g2", "g3", "g4", "g5"]⟩]
      ⟨"KEGG-ok", ["g1", "g2", "g3", "g4", "g5"]⟩ (by decide)).2.1⟩
